import Mathlib

/-!
Verification of the KeKahu fleet-health client: a shallow embedding of the
peer latency measurement subsystem (echo service, latency prober, statistics
table, heartbeat scheduler, reporter) in Lean 4, with theorems settling the
specification claims against the code.

Conventions of the embedding:
* Go strings are Lean `String`s; where the claim depends on the character
  structure of a string (address resolution) we work on `List Char`.
* Go `time.Duration` is a count of nanoseconds (`Nat` for measured
  latencies, `Int` where the source type is a signed `int64`).
* Go `float64` values are modelled as exact rationals `ℚ`.
* Go `uint64` counters wrap modulo `2 ^ 64`.
* Side effects (RPC calls, the error channel, the statistics commits) are
  modelled by explicit outcome parameters and by returning the list of
  effects the code performs.
-/

namespace KeKahuModel

/-- Errors surfaced on the error-reporting channel are opaque strings. -/
abbrev Err := String

/- =======================================================================
   Echo wire protocol and server (src/echo.go)
   ======================================================================= -/

/-- Wire packet of the ping protocol: source identifier, target identifier
and an unsigned sequence number (ping.Packet). -/
structure Packet where
  Source : String
  Target : String
  Sequence : Nat
  deriving DecidableEq, Repr

/-- Echo server state (echo.go `Server`): host name, bind address and the
received-message counter (`messages uint64`). -/
structure Server where
  name : String
  addr : String
  messages : Nat
  deriving DecidableEq, Repr

/-- Embeds `Server.Ping` (echo.go lines 83-91): increment the message
counter (`uint64`, hence modulo `2 ^ 64`), overwrite the target field of the packet
with the name of the server, and return the packet. -/
def Server.Ping (s : Server) (p : Packet) : Server × Packet :=
  ({ s with messages := (s.messages + 1) % 2 ^ 64 },
   { p with Target := s.name })

/- =======================================================================
   Echo client (src/echo.go KeKahu.Ping and resolveAddr)
   ======================================================================= -/

/-- Embeds the constant `DefaultAddr = ":3284"` (echo.go line 16), as the
character list of the Go string. -/
def DefaultAddr : List Char := (":3284").data

/-- Embeds the constant `DefaultPingTimeout = time.Second * 2`
(echo.go line 19), in nanoseconds. -/
def DefaultPingTimeout : Nat := 2 * 1000000000

/-- Embeds `strings.Split(addr, sep)` for a single-character separator:
the maximal run of separator-free substrings, in order.  An empty input
yields one empty part, exactly as in Go. -/
def splitChar (sep : Char) : List Char → List (List Char)
  | [] => [[]]
  | ch :: rest =>
    if ch = sep then [] :: splitChar sep rest
    else
      match splitChar sep rest with
      | [] => [[ch]]
      | s :: ss => (ch :: s) :: ss

/-- Embeds `resolveAddr` (echo.go lines 143-149): split on `:`; if there is
a single part (no colon anywhere) append `DefaultAddr`, otherwise return
the address unmodified. -/
def resolveAddr (addr : List Char) : List Char :=
  if (splitChar ':' addr).length = 1 then addr ++ DefaultAddr else addr

/-- Environment of one `KeKahu.Ping` invocation (echo.go lines 106-138):
the outcome of the `grpc.Dial` connection setup, and the outcome of the
single `client.Ping` RPC when it is reached (an error covers both an
RPC-level failure and exceeding `DefaultPingTimeout`; success carries the
measured elapsed time in nanoseconds). -/
structure PingEnv where
  dial : Except Err Unit
  rpc : Except Err Nat
  deriving Repr

/-- Embeds `KeKahu.Ping` (echo.go lines 106-138).  Returns the pair
`(latency, error)` the Go function returns, together with the number of
times `client.Ping` was invoked.  A dial failure returns before the RPC is
attempted; an RPC failure returns zero duration and an error; on success
the elapsed time is returned with no error.  There is no retry loop. -/
def KeKahu.Ping (env : PingEnv) : (Nat × Option Err) × Nat :=
  match env.dial with
  | .error e => ((0, some ("could not connect: " ++ e)), 0)
  | .ok _ =>
    match env.rpc with
    | .error e => ((0, some ("could not send ping: " ++ e)), 1)
    | .ok d => ((d, none), 1)

/- =======================================================================
   Statistics table (spec section 4.3; the Network/Record implementation
   is referenced from src/latency.go and src/ping.go but its file is not
   part of the provided sources)
   ======================================================================= -/

/-- Modelled from the spec: per-peer `RunningStatistics` record of the
Statistics Table (spec sections 3 and 4.3) — message count, timeout count,
running mean, running variance, minimum and maximum.  The implementation
file of the table (the type of the `network` field with `Next`, `Record`,
`Update`, `Report`) is not among the provided sources; only its call sites
in latency.go and ping.go are. -/
structure RunningStatistics where
  count : Nat
  timeouts : Nat
  mean : ℚ
  variance : ℚ
  minimum : ℚ
  maximum : ℚ
  deriving DecidableEq, Repr

/-- The zero record the statistics of a peer start from (lazily created on
first reference to the peer). -/
def RunningStatistics.empty : RunningStatistics :=
  ⟨0, 0, 0, 0, 0, 0⟩

/-- Number of non-timeout samples folded into the running aggregate: the
zero-duration sentinel increments `count` without contributing a value, so
the folded sample count is `count - timeouts`. -/
def RunningStatistics.samples (s : RunningStatistics) : Nat :=
  s.count - s.timeouts

/-- Modelled from the spec: `Record(peer, duration)` (spec section 4.3).
If `duration == 0` it increments the timeout count and the total count
only; otherwise it folds the value into the running mean/variance/min/max
with the incremental single-pass constant-memory update (Welford step) and
increments the total count. -/
def RunningStatistics.Record (s : RunningStatistics) (d : Nat) : RunningStatistics :=
  if d = 0 then
    { s with count := s.count + 1, timeouts := s.timeouts + 1 }
  else
    let n : ℚ := s.samples
    let x : ℚ := d
    let mean' := s.mean + (x - s.mean) / (n + 1)
    { count := s.count + 1
      timeouts := s.timeouts
      mean := mean'
      variance := (n * s.variance + (x - s.mean) * (x - mean')) / (n + 1)
      minimum := if s.samples = 0 then x else min s.minimum x
      maximum := if s.samples = 0 then x else max s.maximum x }

/-- Modelled from the spec: the `StatisticsTable` as a total mapping from
peer identifier to running record (absent peers read as the lazily created
empty record).  `Record` mutates exactly the record of the addressed peer
through `RunningStatistics.Record`. -/
def StatisticsTable := String → RunningStatistics

/-- Table-level record operation: update the record of the addressed peer and
leave the record of every other peer untouched. -/
def StatisticsTable.Record (t : StatisticsTable) (peer : String) (d : Nat) :
    StatisticsTable :=
  fun q => if q = peer then (t peer).Record d else t q

/- =======================================================================
   Latency prober (src/latency.go)
   ======================================================================= -/

/-- Neighbor record returned by the directory service (latency.go lines
152-157). -/
structure Neighbor where
  Hostname : String
  State : String
  IPAddr : String
  Domain : String
  deriving DecidableEq, Repr

/-- Neighbors response payload (latency.go lines 146-149).  `Targets` is a
Go slice; `none` models the `nil` slice the empty-response check tests
for. -/
structure NeighborsResponse where
  Source : String
  Targets : Option (List Neighbor)
  deriving Repr

/-- Embeds `KeKahu.Neighbors` (latency.go lines 107-132): on any failure
(request creation, HTTP round trip, or decoding) the error is sent on the
error channel and `("", nil)` is returned; on success the decoded source
and target list are returned with no error. -/
def KeKahu.Neighbors (resp : Except Err NeighborsResponse) :
    (String × Option (List Neighbor)) × List Err :=
  match resp with
  | .error e => (("", none), [e])
  | .ok r => ((r.Source, r.Targets), [])

/-- Effects of one per-peer probe task: the errors sent on the error
channel (in program order) and the `network.Update` commits performed
(hostname paired with the committed duration). -/
structure ProbeEffects where
  errors : List Err
  updates : List (String × Nat)
  deriving DecidableEq, Repr

/-- Embeds the body of one spawned probe goroutine (latency.go lines
33-55): on a ping error the error goes to the channel and the latency is
replaced by the zero sentinel; the result is then committed once via
`network.Update`; when `report` is true a failing report sends its error
and returns (the commit has already happened). -/
def probeTask (host : String) (ping : Except Err Nat) (report : Bool)
    (rep : Except Err Unit) : ProbeEffects :=
  let step := match ping with
    | .error e => (0, [e])
    | .ok d => (d, [])
  let repErrs := if report then
      match rep with
      | .error e => [e]
      | .ok _ => []
    else []
  ⟨step.2 ++ repErrs, [(host, step.1)]⟩

/-- Embeds the fan-out of `KeKahu.Latency` (latency.go lines 24-59): with
an empty source or a nil target list nothing is probed; otherwise one probe
task is spawned per neighbor and the WaitGroup join collects the effects of every task
 before the call returns.  `ping` and `rep` give the per-neighbor
ping and report outcomes. -/
def latencyProbes (source : String) (targets : Option (List Neighbor))
    (ping : Neighbor → Except Err Nat) (report : Bool)
    (rep : Neighbor → Except Err Unit) : List ProbeEffects :=
  match targets with
  | none => []
  | some ts =>
    if source = "" then []
    else ts.map (fun t => probeTask t.Hostname (ping t) report (rep t))

/-- All statistics commits a `KeKahu.Latency` cycle performs: the updates
of every spawned probe task. -/
def latencyUpdates (source : String) (targets : Option (List Neighbor))
    (ping : Neighbor → Except Err Nat) (report : Bool)
    (rep : Neighbor → Except Err Unit) : List (String × Nat) :=
  (latencyProbes source targets ping report rep).foldr
    (fun p acc => p.updates ++ acc) []

/- =======================================================================
   Heartbeat scheduler (src/heartbeat.go)
   ======================================================================= -/

/-- Heartbeat response payload (heartbeat.go lines 103-107). -/
structure HeartbeatResponse where
  Success : Bool
  Replica : String
  Active : Bool
  deriving DecidableEq, Repr

/-- Outcomes of the fallible steps of one heartbeat callback
(heartbeat.go lines 27-59): loading the request data, encoding it,
creating the HTTP request, performing it, and parsing the response. -/
structure HBOutcomes where
  load : Except Err Unit
  encode : Except Err Unit
  request : Except Err Unit
  response : Except Err Unit
  parse : Except Err HeartbeatResponse
  deriving Repr

/-- Result of one heartbeat callback: the errors sent on the error channel,
whether a latency probe cycle was launched (`go k.Latency(true)`), and
whether the next heartbeat was scheduled. -/
structure HBResult where
  errors : List Err
  latencyLaunched : Bool
  rescheduled : Bool
  deriving DecidableEq, Repr

/-- Embeds `KeKahu.Heartbeat` (heartbeat.go lines 20-70).  The deferred
`time.AfterFunc(k.delay, k.Heartbeat)` on line 24 is registered before any
early return, so every exit path reschedules the next heartbeat; each
failing step sends its error to the channel and returns; on a successful
and active response the latency cycle is launched asynchronously. -/
def KeKahu.Heartbeat (o : HBOutcomes) : HBResult :=
  let resched := true
  match o.load with
  | .error e => ⟨[e], false, resched⟩
  | .ok _ =>
    match o.encode with
    | .error e => ⟨[e], false, resched⟩
    | .ok _ =>
      match o.request with
      | .error e => ⟨[e], false, resched⟩
      | .ok _ =>
        match o.response with
        | .error e => ⟨[e], false, resched⟩
        | .ok _ =>
          match o.parse with
          | .error e => ⟨[e], false, resched⟩
          | .ok hb => ⟨[], hb.Success && hb.Active, resched⟩

/-- Modelled from the spec: the delay computation of the scheduler
`Schedule(baseInterval, jitter)` (spec section 4.4).  The jitter
computation itself is not among the provided sources (heartbeat.go only
passes the stored `k.delay` to `time.AfterFunc`); per the spec, the next
delay is drawn uniformly from `[baseInterval - jitter,
baseInterval + jitter]` — modelled by a draw `r` in `[0, 2 * jitter]` —
and clamped so it is never below `baseInterval` when
`jitter >= baseInterval`.  Times are in nanoseconds. -/
def scheduleDelay (base jitter r : Nat) : Int :=
  if (base : Int) ≤ (jitter : Int) then
    max ((base : Int) - (jitter : Int) + (r : Int)) (base : Int)
  else (base : Int) - (jitter : Int) + (r : Int)

/-- Firing times of the self-rescheduling heartbeat chain (heartbeat.go
line 24): the first callback fires at time 0; each callback runs for `c`
time units and schedules the next firing `delay` after it returns. -/
def fireTime (c delay : Nat) : Nat → Nat
  | 0 => 0
  | i + 1 => fireTime c delay i + c + delay

/-- A probe cycle launched asynchronously by firing `i` (heartbeat.go line
67, `go k.Latency(true)`) is in flight at `time` when it has started and
has not yet run for its duration `l`. -/
def probeInFlight (c delay l i time : Nat) : Prop :=
  fireTime c delay i ≤ time ∧ time < fireTime c delay i + l

instance (c delay l i time : Nat) : Decidable (probeInFlight c delay l i time) :=
  inferInstanceAs (Decidable (_ ∧ _))

/- =======================================================================
   Reporter (src/latency.go UpdateLatencyRequest)
   ======================================================================= -/

/-- Wire report of one ping sent to the management service (latency.go
lines 163-167).  The `float64` latency in milliseconds is modelled as an
exact rational. -/
structure UpdateLatencyRequest where
  Target : String
  Latency : ℚ
  Timeout : Bool
  deriving DecidableEq, Repr

/-- Embeds `UpdateLatencyRequest.Init` (latency.go lines 170-180): set the
target; a zero duration marks a timeout with zero latency; otherwise the
duration (a signed `int64` nanosecond count) is converted to milliseconds
by dividing by `float64(time.Millisecond) = 10^6`. -/
def UpdateLatencyRequest.Init (target : String) (latency : Int) :
    UpdateLatencyRequest :=
  if latency = 0 then
    { Target := target, Timeout := true, Latency := 0 }
  else
    { Target := target, Timeout := false,
      Latency := (latency : ℚ) / 1000000 }

/-- A concrete empty statistics table used by witnesses. -/
def emptyTable : StatisticsTable := fun _ => RunningStatistics.empty

/- =======================================================================
   Helper lemmas
   ======================================================================= -/

/-- Splitting a character list never yields an empty list of parts. -/
theorem splitChar_length_pos (sep : Char) (l : List Char) :
    0 < (splitChar sep l).length := by
  induction l with
  | nil => simp [splitChar]
  | cons ch rest ih =>
    by_cases h : ch = sep
    · simp [splitChar, h]
    · cases hr : splitChar sep rest with
      | nil => simp [splitChar, h, hr]
      | cons s ss => simp [splitChar, h, hr]

/-- Splitting yields a single part exactly when the separator is absent. -/
theorem splitChar_length_eq_one (sep : Char) (l : List Char) :
    (splitChar sep l).length = 1 ↔ sep ∉ l := by
  induction l with
  | nil => simp [splitChar]
  | cons ch rest ih =>
    by_cases h : ch = sep
    · subst h
      have hpos := splitChar_length_pos ch rest
      simp [splitChar]
      exact List.ne_nil_of_length_pos hpos
    · cases hr : splitChar sep rest with
      | nil => exact absurd hr (by
          have := splitChar_length_pos sep rest
          intro hnil
          rw [hnil] at this
          simp at this)
      | cons s ss =>
        rw [hr] at ih
        simp only [splitChar, if_neg h, hr, List.length_cons, List.mem_cons] at ih ⊢
        constructor
        · intro hlen hmem
          rcases hmem with hceq | hrest
          · exact h hceq.symm
          · exact (ih.mp (by omega)) hrest
        · intro hmem
          have : sep ∉ rest := fun hrest => hmem (Or.inr hrest)
          have := ih.mpr this
          omega

/-- Every exit path of the heartbeat callback reschedules the next
heartbeat, because the timer is registered by a `defer` before any early
return. -/
theorem heartbeat_always_reschedules (o : HBOutcomes) :
    (KeKahu.Heartbeat o).rescheduled = true := by
  obtain ⟨l, e, q, r, p⟩ := o
  cases l <;> cases e <;> cases q <;> cases r <;> cases p <;> rfl

/-- Firing times of the heartbeat chain are separated by at least the
scheduling delay. -/
theorem fireTime_gap (c delay : Nat) (i j : Nat) (h : i < j) :
    fireTime c delay i + delay ≤ fireTime c delay j := by
  induction j with
  | zero => exact absurd h (Nat.not_lt_zero i)
  | succ j ih =>
    rcases Nat.lt_succ_iff_lt_or_eq.mp h with h2 | h2
    · have := ih h2
      simp only [fireTime]
      omega
    · subst h2
      simp only [fireTime]
      omega

/- =======================================================================
   Claim theorems
   ======================================================================= -/

/-- Claim C4: the echo server Ping handler increments the received-message
counter by exactly 1 (as long as the `uint64` counter does not wrap) and
returns the request packet with the target overwritten by the identity of
the server and the source and sequence fields unchanged; the server name
and address are untouched. -/
theorem server_ping_spec (s : Server) (p : Packet)
    (h : s.messages + 1 < 2 ^ 64) :
    (Server.Ping s p).1.messages = s.messages + 1 ∧
    (Server.Ping s p).2 = { p with Target := s.name } ∧
    (Server.Ping s p).2.Source = p.Source ∧
    (Server.Ping s p).2.Sequence = p.Sequence ∧
    (Server.Ping s p).1.name = s.name ∧
    (Server.Ping s p).1.addr = s.addr :=
  ⟨Nat.mod_eq_of_lt h, rfl, rfl, rfl, rfl, rfl⟩

/-- Witness for C4 at a concrete server and packet. -/
theorem server_ping_witness :
    (Server.Ping ⟨"srv", ":3284", 7⟩ ⟨"src", "old", 42⟩).1.messages = 8 ∧
    (Server.Ping ⟨"srv", ":3284", 7⟩ ⟨"src", "old", 42⟩).2 =
      ⟨"src", "srv", 42⟩ := by
  have h := server_ping_spec ⟨"srv", ":3284", 7⟩ ⟨"src", "old", 42⟩
    (by norm_num)
  exact ⟨h.1, h.2.1⟩

/-- Claim C5 counterexample: when the connection dial fails, the client
returns before the RPC is issued, so the number of `client.Ping` RPC
attempts for that invocation is 0, not exactly 1 as the claim states. -/
theorem kekahu_ping_cex :
    (KeKahu.Ping ⟨Except.error "connection refused", Except.ok 5⟩).2 ≠ 1 := by
  decide

/-- Claim C5 (amended): every failure mode (connection failure, RPC-level
failure, or exceeding the fixed per-call timeout, which defaults to 2
seconds) returns a zero duration together with a non-nil error; the client
never makes more than one RPC attempt per invocation (no retries), and
makes exactly one whenever the connection dial succeeds. -/
theorem kekahu_ping_spec (env : PingEnv) :
    ((KeKahu.Ping env).1.2 ≠ none → (KeKahu.Ping env).1.1 = 0) ∧
    ((∃ e, env.dial = Except.error e) ∨ (∃ e, env.rpc = Except.error e) →
      (KeKahu.Ping env).1.2 ≠ none) ∧
    (KeKahu.Ping env).2 ≤ 1 ∧
    (env.dial = Except.ok () → (KeKahu.Ping env).2 = 1) ∧
    DefaultPingTimeout = 2 * 1000000000 := by
  obtain ⟨dial, rpc⟩ := env
  cases dial with
  | error e => simp [KeKahu.Ping, DefaultPingTimeout]
  | ok u =>
    cases u
    cases rpc with
    | error e => simp [KeKahu.Ping, DefaultPingTimeout]
    | ok d => simp [KeKahu.Ping, DefaultPingTimeout]

/-- Witness for C5 (amended) at a concrete timed-out invocation. -/
theorem kekahu_ping_witness :
    (KeKahu.Ping ⟨Except.ok (), Except.error "deadline exceeded"⟩).1.1 = 0 ∧
    (KeKahu.Ping ⟨Except.ok (), Except.error "deadline exceeded"⟩).2 = 1 := by
  have h := kekahu_ping_spec ⟨Except.ok (), Except.error "deadline exceeded"⟩
  exact ⟨h.1 (h.2.1 (Or.inr ⟨_, rfl⟩)), h.2.2.2.1 rfl⟩

/-- Claim C6: address resolution leaves an address that already contains a
port separator unmodified and appends the default port `:3284` to a bare
address with no colon; in particular `10.0.0.5` resolves to
`10.0.0.5:3284` and `10.0.0.5:9000` is unchanged. -/
theorem resolveAddr_spec (addr : List Char) :
    (':' ∈ addr → resolveAddr addr = addr) ∧
    (':' ∉ addr → resolveAddr addr = addr ++ DefaultAddr) ∧
    resolveAddr ("10.0.0.5").data = ("10.0.0.5:3284").data ∧
    resolveAddr ("10.0.0.5:9000").data = ("10.0.0.5:9000").data := by
  refine ⟨?_, ?_, ?_, ?_⟩
  · intro h
    unfold resolveAddr
    rw [if_neg]
    intro hlen
    exact (splitChar_length_eq_one ':' addr).mp hlen h
  · intro h
    unfold resolveAddr
    rw [if_pos ((splitChar_length_eq_one ':' addr).mpr h)]
  · decide
  · decide

/-- Witness for C6 at concrete addresses. -/
theorem resolveAddr_witness :
    resolveAddr ("kahu").data = ("kahu").data ++ DefaultAddr ∧
    resolveAddr ("a:1").data = ("a:1").data :=
  ⟨(resolveAddr_spec ("kahu").data).2.1 (by decide),
   (resolveAddr_spec ("a:1").data).1 (by decide)⟩

/-- Claim C10: the wire report constructor sets the target verbatim, and
produces a timeout report with zero latency exactly when the duration is
the zero sentinel; a nonzero duration is reported as a non-timeout with
the duration converted to milliseconds. -/
theorem update_latency_init_spec (target : String) (d : Int) :
    ((UpdateLatencyRequest.Init target d).Timeout = true ∧
      (UpdateLatencyRequest.Init target d).Latency = 0 ↔ d = 0) ∧
    (d ≠ 0 →
      (UpdateLatencyRequest.Init target d).Timeout = false ∧
      (UpdateLatencyRequest.Init target d).Latency = (d : ℚ) / 1000000) ∧
    (UpdateLatencyRequest.Init target d).Target = target := by
  unfold UpdateLatencyRequest.Init
  by_cases h : d = 0 <;> simp [h]

/-- Witness for C10 at the sentinel and at a 5 ms duration. -/
theorem update_latency_init_witness :
    (UpdateLatencyRequest.Init "alpha" 0).Timeout = true ∧
    (UpdateLatencyRequest.Init "alpha" 5000000).Timeout = false ∧
    (UpdateLatencyRequest.Init "alpha" 5000000).Latency = 5 := by
  refine ⟨((update_latency_init_spec "alpha" 0).1.mpr rfl).1, ?_, ?_⟩
  · exact ((update_latency_init_spec "alpha" 5000000).2.1 (by norm_num)).1
  · have h := ((update_latency_init_spec "alpha" 5000000).2.1 (by norm_num)).2
    rw [h]
    norm_num

/-- Claim C1: recording the zero-duration timeout sentinel for a peer
increments both the total count and the timeout count by exactly 1 and
leaves mean, variance, minimum and maximum unchanged; recording a nonzero
duration increments the total count, leaves the timeout count unchanged,
and folds the value into the running aggregate (the new extrema absorb the
value and the new mean is the running average of the old samples plus the
value); records of other peers are untouched. -/
theorem record_spec (t : StatisticsTable) (peer : String) (d : Nat) :
    (d = 0 → (t.Record peer d) peer =
      { t peer with count := (t peer).count + 1,
                    timeouts := (t peer).timeouts + 1 }) ∧
    (d ≠ 0 →
      ((t.Record peer d) peer).count = (t peer).count + 1 ∧
      ((t.Record peer d) peer).timeouts = (t peer).timeouts ∧
      ((t.Record peer d) peer).minimum ≤ (d : ℚ) ∧
      (d : ℚ) ≤ ((t.Record peer d) peer).maximum ∧
      ((t.Record peer d) peer).mean * (((t peer).samples : ℚ) + 1) =
        (t peer).mean * ((t peer).samples : ℚ) + (d : ℚ)) ∧
    (∀ q, q ≠ peer → (t.Record peer d) q = t q) := by
  refine ⟨?_, ?_, ?_⟩
  · intro h
    subst h
    simp [StatisticsTable.Record, RunningStatistics.Record]
  · intro h
    have hpos : ((t peer).samples : ℚ) + 1 ≠ 0 := by positivity
    simp only [StatisticsTable.Record, if_pos rfl, RunningStatistics.Record,
      if_neg h]
    refine ⟨rfl, rfl, ?_, ?_, ?_⟩
    · by_cases hs : (t peer).samples = 0 <;>
        simp [hs, min_le_right]
    · by_cases hs : (t peer).samples = 0 <;>
        simp [hs, le_max_right]
    · field_simp
      ring
  · intro q hq
    simp [StatisticsTable.Record, hq]

/-- Witness for C1: a timeout then a 3 ns sample on the empty table. -/
theorem record_witness :
    ((StatisticsTable.Record emptyTable "p" 0) "p").timeouts = 1 ∧
    ((StatisticsTable.Record emptyTable "p" 3) "p").timeouts = 0 ∧
    ((StatisticsTable.Record emptyTable "p" 3) "p").count = 1 := by
  have h0 := (record_spec emptyTable "p" 0).1 rfl
  have h3 := (record_spec emptyTable "p" 3).2.1 (by norm_num)
  refine ⟨?_, ?_, ?_⟩
  · rw [h0]
    rfl
  · exact h3.2.1
  · exact h3.1

/-- Claim C2: one per-peer probe task commits exactly one update to the
statistics table; a ping failure commits the zero-duration sentinel and
sends the error to the error channel; a ping success commits the measured
latency. -/
theorem probe_task_spec (host : String) (ping : Except Err Nat)
    (report : Bool) (rep : Except Err Unit) :
    (probeTask host ping report rep).updates.length = 1 ∧
    (∀ e, ping = Except.error e →
      (probeTask host ping report rep).updates = [(host, 0)] ∧
      e ∈ (probeTask host ping report rep).errors) ∧
    (∀ d, ping = Except.ok d →
      (probeTask host ping report rep).updates = [(host, d)]) := by
  cases ping <;> simp [probeTask]

/-- Witness for C2: a failing and a succeeding probe. -/
theorem probe_task_witness :
    (probeTask "host" (Except.error "boom") true (Except.ok ())).updates =
      [("host", 0)] ∧
    "boom" ∈ (probeTask "host" (Except.error "boom") true
      (Except.ok ())).errors ∧
    (probeTask "host" (Except.ok 9) false (Except.ok ())).updates =
      [("host", 9)] := by
  have h1 := (probe_task_spec "host" (Except.error "boom") true
    (Except.ok ())).2.1 "boom" rfl
  have h2 := (probe_task_spec "host" (Except.ok 9) false
    (Except.ok ())).2.2 9 rfl
  exact ⟨h1.1, h1.2, h2⟩

/-- Claim C3: when there is something to probe, the latency cycle joins
exactly one completed probe per listed peer (the result list has one entry
per peer, in position), each probe commits exactly one update, and the
result of each probe depends only on the outcomes of that peer — changing
the outcomes of every other peer changes nothing at its position. -/
theorem latency_join_spec (source : String)
    (targets : Option (List Neighbor)) (ts : List Neighbor)
    (ping : Neighbor → Except Err Nat) (report : Bool)
    (rep : Neighbor → Except Err Unit)
    (hs : source ≠ "") (ht : targets = some ts) :
    (latencyProbes source targets ping report rep).length = ts.length ∧
    (∀ i t, ts.get? i = some t →
      (latencyProbes source targets ping report rep).get? i =
        some (probeTask t.Hostname (ping t) report (rep t)) ∧
      (probeTask t.Hostname (ping t) report (rep t)).updates.length = 1 ∧
      ∀ ping2 rep2, ping2 t = ping t → rep2 t = rep t →
        (latencyProbes source targets ping2 report rep2).get? i =
          some (probeTask t.Hostname (ping t) report (rep t))) := by
  subst ht
  simp only [latencyProbes, if_neg hs]
  constructor
  · exact List.length_map ts _
  · intro i t hit
    refine ⟨?_, ?_, ?_⟩
    · rw [List.get?_map, hit]
      rfl
    · rfl
    · intro ping2 rep2 hp hr
      rw [List.get?_map, hit]
      simp [hp, hr]

/-- Witness for C3 at a two-peer cycle. -/
theorem latency_join_witness :
    (latencyProbes "me" (some [⟨"a", "up", "1.2.3.4", ""⟩,
      ⟨"b", "up", "5.6.7.8", ""⟩]) (fun _ => Except.ok 7) true
      (fun _ => Except.ok ())).length = 2 ∧
    (latencyProbes "me" (some [⟨"a", "up", "1.2.3.4", ""⟩,
      ⟨"b", "up", "5.6.7.8", ""⟩]) (fun _ => Except.ok 7) true
      (fun _ => Except.ok ())).get? 1 =
      some (probeTask "b" (Except.ok 7) true (Except.ok ())) := by
  have h := latency_join_spec "me" _
    [⟨"a", "up", "1.2.3.4", ""⟩, ⟨"b", "up", "5.6.7.8", ""⟩]
    (fun _ => Except.ok 7) true (fun _ => Except.ok ())
    (by decide) rfl
  exact ⟨h.1, (h.2 1 ⟨"b", "up", "5.6.7.8", ""⟩ rfl).1⟩

/-- Claim C7: a cycle whose neighbor fetch yields an empty source or no
target list spawns no probes and makes no statistics updates; the fetch
failure path only sends the error to the non-fatal error channel while
returning the empty result, and the heartbeat that drives the cycles
reschedules itself on every exit path, so only the one cycle is skipped. -/
theorem empty_cycle_spec (source : String)
    (targets : Option (List Neighbor))
    (ping : Neighbor → Except Err Nat) (report : Bool)
    (rep : Neighbor → Except Err Unit) (o : HBOutcomes) (e : Err)
    (h : source = "" ∨ targets = none) :
    latencyProbes source targets ping report rep = [] ∧
    latencyUpdates source targets ping report rep = [] ∧
    KeKahu.Neighbors (Except.error e) = (("", none), [e]) ∧
    (KeKahu.Heartbeat o).rescheduled = true := by
  have hp : latencyProbes source targets ping report rep = [] := by
    rcases h with h | h
    · cases targets <;> simp [latencyProbes, h]
    · simp [latencyProbes, h]
  refine ⟨hp, ?_, rfl, heartbeat_always_reschedules o⟩
  rw [latencyUpdates, hp]
  rfl

/-- Witness for C7 with an empty source and a failing heartbeat step. -/
theorem empty_cycle_witness :
    latencyProbes "" (some [⟨"a", "up", "1.2.3.4", ""⟩])
      (fun _ => Except.ok 7) true (fun _ => Except.ok ()) = [] ∧
    (KeKahu.Heartbeat ⟨Except.error "http 503", Except.ok (), Except.ok (),
      Except.ok (), Except.error "bad json"⟩).rescheduled = true := by
  have h := empty_cycle_spec "" (some [⟨"a", "up", "1.2.3.4", ""⟩])
    (fun _ => Except.ok 7) true (fun _ => Except.ok ())
    ⟨Except.error "http 503", Except.ok (), Except.ok (),
      Except.ok (), Except.error "bad json"⟩ "unavailable" (Or.inl rfl)
  exact ⟨h.1, h.2.2.2⟩

/-- Claim C8: the scheduled delay drawn with offset `r` in
`[0, 2 * jitter]` always lies in `[baseInterval - jitter,
baseInterval + jitter]`, is clamped to at least `baseInterval` when
`jitter >= baseInterval`, equals `baseInterval` exactly when `jitter = 0`,
and for `baseInterval = jitter = 60s` lies in `[60s, 120s]` and is never
zero. -/
theorem schedule_delay_spec (base jitter r : Nat) (h : r ≤ 2 * jitter) :
    (jitter = 0 → scheduleDelay base jitter r = base) ∧
    ((base : Int) - jitter ≤ scheduleDelay base jitter r ∧
      scheduleDelay base jitter r ≤ (base : Int) + jitter) ∧
    (base ≤ jitter → (base : Int) ≤ scheduleDelay base jitter r) ∧
    (base = 60000000000 → jitter = 60000000000 →
      ((60000000000 : Int) ≤ scheduleDelay base jitter r ∧
        scheduleDelay base jitter r ≤ 120000000000 ∧
        scheduleDelay base jitter r ≠ 0)) := by
  unfold scheduleDelay
  simp only [max_def]
  split_ifs <;> omega

/-- Witness for C8 in the 60 second base and jitter scenario. -/
theorem schedule_delay_witness :
    (60000000000 : Int) ≤ scheduleDelay 60000000000 60000000000 0 ∧
    scheduleDelay 60000000000 60000000000 0 ≤ 120000000000 ∧
    scheduleDelay 60000000000 60000000000 0 ≠ 0 :=
  (schedule_delay_spec 60000000000 60000000000 0 (Nat.zero_le _)).2.2.2
    rfl rfl

/-- Claim C9 counterexample: the heartbeat launches the probe cycle
asynchronously, so with an instantaneous callback, a delay of 1 time unit
and a probe cycle lasting 2 time units, the cycles launched by firings 0
and 1 are both in flight at time 1 — two probe cycles in flight at the
same time, refuting the claim as stated. -/
theorem heartbeat_overlap_cex :
    probeInFlight 0 1 2 0 1 ∧ probeInFlight 0 1 2 1 1 := by
  decide

/-- Claim C9 (amended): each heartbeat firing launches at most one probe
cycle, and the next firing is scheduled only after its callback returns
(successive firing times differ by the callback time plus the delay, not
by fixed ticks); probe cycles never overlap provided each cycle finishes
within the scheduling delay — because the cycle is launched
asynchronously, the claimed never-in-flight-together property holds only
under that proviso. -/
theorem heartbeat_no_overlap (c delay l : Nat) (hl : l ≤ delay) :
    (∀ o : HBOutcomes,
      (if (KeKahu.Heartbeat o).latencyLaunched then 1 else 0) ≤ 1) ∧
    (∀ i, fireTime c delay (i + 1) = fireTime c delay i + c + delay) ∧
    (∀ i j time, i ≠ j →
      ¬(probeInFlight c delay l i time ∧ probeInFlight c delay l j time)) := by
  refine ⟨fun o => ?_, fun i => rfl, ?_⟩
  · split <;> omega
  intro i j time hij hin
  obtain ⟨⟨hi1, hi2⟩, hj1, hj2⟩ := hin
  rcases Nat.lt_or_ge i j with hlt | hge
  · have := fireTime_gap c delay i j hlt
    omega
  · have hjlt : j < i := lt_of_le_of_ne hge (Ne.symm hij)
    have := fireTime_gap c delay j i hjlt
    omega

/-- Witness for C9 (amended) with delay 5 and cycle length 3. -/
theorem heartbeat_no_overlap_witness :
    fireTime 0 5 1 = fireTime 0 5 0 + 0 + 5 ∧
    ¬(probeInFlight 0 5 3 0 6 ∧ probeInFlight 0 5 3 1 6) := by
  have h := heartbeat_no_overlap 0 5 3 (by omega)
  exact ⟨h.2.1 0, h.2.2 0 1 6 (by omega)⟩

end KeKahuModel
